import Mathlib

/-!
Verification development for the workspace file resolver of a Luau language
server (`src/src/WorkspaceFileResolver.cpp`).

The C++ core is embedded shallowly:

* the sourcemap tree (`SourceNode`) is an inductive tree; the JSON parser,
  the plugin-info mutation and the various `std::filesystem` primitives that
  live outside this translation unit are oracles collected in `Env`;
* the two `unordered_map` indexes are association lists with
  insert-at-the-front semantics (`m[k] = v` overwrites, which a front insert
  together with first-match lookup reproduces exactly);
* fallible C++ (a null-pointer dereference) is `Except Unit`;
* the mutable per-resolver state is passed explicitly (`Resolver`,
  `ConfigState`).
-/

namespace LuauLsp

/-- A node of the sourcemap tree, as deserialized from the structural
description (the `SourceNode` class is declared outside this translation
unit; its data fields are the ones the resolver reads: `name`, `className`,
the optional script file path returned by `getScriptFilePath()`, and
`children`). -/
inductive SourceNode where
  | mk (name : String) (className : String) (scriptFilePath : Option String)
      (children : List SourceNode)

def SourceNode.name : SourceNode → String
  | .mk n _ _ _ => n

def SourceNode.className : SourceNode → String
  | .mk _ c _ _ => c

def SourceNode.scriptFilePath : SourceNode → Option String
  | .mk _ _ s _ => s

def SourceNode.children : SourceNode → List SourceNode
  | .mk _ _ _ cs => cs

/-- A pointer to a `SourceNode` as stored in the two path indexes: the node's
`virtualPath` field has been assigned by `writePathsToMap` before the node is
inserted, so the stored value is the construction-time node data together
with its assigned virtual path. -/
structure PNode where
  virtualPath : String
  node : SourceNode

/-- `Luau::ModuleInfo`: a module name plus the `optional` flag.  The C++
aggregate initialisation `ModuleInfo{name}` leaves `optional` as `false`. -/
structure ModuleInfo where
  name : String
  optional : Bool := false

/-- The closed set of reference-expression shapes `resolveModule` inspects
(`AstExprConstantString`, `AstExprGlobal`, `AstExprIndexName`,
`AstExprIndexExpr`, `AstExprCall`); every other AST shape is `other`.
Only the fields the resolver reads are kept. -/
inductive AstExpr where
  | constantString (value : String)
  | global (name : String)
  | indexName (expr : AstExpr) (index : String)
  | indexExpr (expr : AstExpr) (index : AstExpr)
  | call (func : AstExpr) (self : Bool) (args : List AstExpr)
  | other

/-- `RequireModeConfig` from the client configuration. -/
inductive RequireModeConfig where
  | relativeToWorkspaceRoot
  | relativeToFile

/-- The collaborators and `std::filesystem` primitives used by the resolver,
modelled as total oracles.  `isVirtualPath`, `resolvePath`, `getParentPath`
and `getAncestorPath` are declared in a utilities header outside this
translation unit; the filesystem calls (`weakly_canonical` with its error
code, `exists`, `is_directory`, `replace_extension`, ...) depend on the
ambient filesystem.  Path concatenation `a / b` is modelled by `joinPath`
below (the operands the code joins are a directory and a relative path). -/
structure Env where
  /-- `rootUri.fsPath()`, the workspace root. -/
  rootPath : String
  /-- whether the (optional) LSP client collaborator is present. -/
  hasClient : Bool
  /-- `config.require.mode` from the client configuration. -/
  requireMode : RequireModeConfig
  /-- `config.require.fileAliases`; a list models one iteration order of the
  `unordered_map`. -/
  fileAliases : List (String × String)
  /-- `config.require.directoryAliases`; a list models one iteration order of
  the `unordered_map`. -/
  directoryAliases : List (String × String)
  /-- the defaulted `includeExtension` argument of `resolveDirectoryAlias`
  (its default lives in the header, outside this translation unit). -/
  includeExtensionDefault : Bool
  /-- Modelled from the spec: `isVirtualPath` (utilities header) is "a pure
  syntactic predicate" classifying an identity as virtual vs real. -/
  isVirtualPath : String → Bool
  /-- `std::filesystem::is_directory(p, ec)`. -/
  isDirectory : String → Bool
  /-- `std::filesystem::exists(p)`. -/
  fsExists : String → Bool
  /-- `std::filesystem::weakly_canonical(p, ec)`: `none` when the error code
  is set. -/
  weaklyCanonical : String → Option String
  /-- `resolvePath` from the utilities header. -/
  resolvePath : String → String
  /-- `std::filesystem::path::parent_path()`. -/
  parentPathOf : String → String
  /-- `std::filesystem::path::has_extension()`. -/
  hasExtension : String → Bool
  /-- `std::filesystem::path::replace_extension(ext)`. -/
  replaceExtension : String → String → String
  /-- `Uri::parse(Uri::file(p).toString()).fsPath().generic_string()`, the
  normalising URI round trip at the end of the string-require branch. -/
  uriNormalise : String → String
  /-- `json::parse(contents).get<SourceNode>()`: `none` when either step
  throws. -/
  parseSourceMap : String → Option SourceNode
  /-- whether `pluginInfo` is non-null. -/
  pluginInfo : Bool
  /-- `SourceNode::mutateWithPluginInfo` (declared outside this translation
  unit), as a tree transformation. -/
  mutatePlugin : SourceNode → SourceNode

/-- The mutable state of `WorkspaceFileResolver` that the embedded functions
touch: the two path indexes and the root of the current tree. -/
structure Resolver where
  virtualPathsToSourceNodes : List (String × PNode)
  realPathsToSourceNodes : List (String × PNode)
  rootSourceNode : Option SourceNode

/-- First-match association-list lookup: `unordered_map::find` followed by
`at`, for a map represented with newest entries at the front. -/
def lookupFst {κ α : Type} [DecidableEq κ] : List (κ × α) → κ → Option α
  | [], _ => none
  | (k, v) :: rest, key => if k = key then some v else lookupFst rest key

/-- `std::filesystem` `operator/` for a directory and a relative component. -/
def joinPath (a b : String) : String := a ++ "/" ++ b

/-- `mapContext`: modify the context so that `game/Players/LocalPlayer` items
point to the correct place. -/
def mapContext (context : String) : String :=
  if context = "game/Players/LocalPlayer/PlayerScripts" then
    "game/StarterPlayer/StarterPlayerScripts"
  else if context = "game/Players/LocalPlayer/PlayerGui" then
    "game/StarterGui"
  else if context = "game/Players/LocalPlayer/StarterGear" then
    "game/StarterPack"
  else
    context

/-- Split a path into its `/`-separated segments (the core `String.splitOn`
restricted to this one separator, stated over the character list so that it
evaluates). -/
def splitOnSlash (s : String) : List String :=
  go s.data []
where
  go : List Char → List Char → List String
    | [], acc => [String.mk acc.reverse]
    | c :: cs, acc =>
      if c = '/' then String.mk acc.reverse :: go cs [] else go cs (c :: acc)

/-- `Luau::startsWith(str, target)` (the core `String.isPrefixOf`, stated
over the character lists so that it evaluates). -/
def strStartsWith (str target : String) : Bool :=
  List.isPrefixOf target.data str.data

/-- Modelled from the spec: `getParentPath` (utilities header, not among
these sources) — "Returns the virtual path one level up from context ...; no
result if context has no parent". -/
def getParentPath (path : String) : Option String :=
  let parts := splitOnSlash path
  if parts.length ≤ 1 then none
  else some (String.intercalate "/" parts.dropLast)

/-- Modelled from the spec: `getAncestorPath` (utilities header, not among
these sources) — "walks the context's virtual path upward looking for a path
segment equal to the argument and returns the virtual path truncated at and
including that segment; no result if no ancestor segment matches". -/
def getAncestorPath (path : String) (ancestorName : String) : Option String :=
  let ancestors := (splitOnSlash path).dropLast
  match ancestors.reverse.findIdx? (· = ancestorName) with
  | none => none
  | some i => some (String.intercalate "/" (ancestors.take (ancestors.length - i)))

/-- The key under which `writePathsToMap` registers a script file path in the
real-path index: `weakly_canonical(rootUri.fsPath() / realPath, ec)`, falling
back to `*realPath` itself (not the join) when the error code is set. -/
def rmapKey (env : Env) (realPath : String) : String :=
  match env.weaklyCanonical (joinPath env.rootPath realPath) with
  | some canonicalName => canonicalName
  | none => realPath

mutual

/-- `WorkspaceFileResolver::writePathsToMap`: assign `node->virtualPath`,
register the node in both indexes, then recurse into the children with
`base + "/" + child->name`. -/
def writePathsToMap (env : Env) : SourceNode → String → Resolver → Resolver
  | n@(.mk _ _ sfp children), base, r =>
    let r1 : Resolver :=
      { r with virtualPathsToSourceNodes :=
          (base, ⟨base, n⟩) :: r.virtualPathsToSourceNodes }
    let r2 : Resolver :=
      match sfp with
      | some realPath =>
        { r1 with realPathsToSourceNodes :=
            (rmapKey env realPath, ⟨base, n⟩) :: r1.realPathsToSourceNodes }
      | none => r1
    writePathsChildren env children base r2

/-- The `for (auto& child : node->children)` loop of `writePathsToMap` (the
`child->parent = node` back-reference assignment is not observable through
any embedded function and is omitted). -/
def writePathsChildren (env : Env) : List SourceNode → String → Resolver → Resolver
  | [], _, r => r
  | c :: cs, base, r =>
    writePathsChildren env cs base (writePathsToMap env c (joinPath base c.name) r)

end

/-- The root after the optional plugin-info mutation in `updateSourceMap`:
mutation applies only when `pluginInfo` is present and the root's class is
`DataModel`. -/
def effectiveRoot (env : Env) (root : SourceNode) : SourceNode :=
  if env.pluginInfo && (root.className == "DataModel") then env.mutatePlugin root
  else root

/-- The base name chosen for the root in `updateSourceMap`. -/
def rootBase (root : SourceNode) : String :=
  if root.className == "DataModel" then "game" else "ProjectRoot"

/-- `WorkspaceFileResolver::updateSourceMap`: clear both indexes, then parse;
on a parse exception the catch block leaves the (already cleared) indexes and
the previous `rootSourceNode`; on success install the new root, apply the
plugin mutation, and walk the tree. -/
def updateSourceMap (env : Env) (r : Resolver) (sourceMapContents : String) : Resolver :=
  let r1 : Resolver := { r with realPathsToSourceNodes := [], virtualPathsToSourceNodes := [] }
  match env.parseSourceMap sourceMapContents with
  | none => r1
  | some parsed =>
    let root := effectiveRoot env parsed
    writePathsToMap env root (rootBase root) { r1 with rootSourceNode := some root }

/-- `WorkspaceFileResolver::getSourceNodeFromVirtualPath`. -/
def getSourceNodeFromVirtualPath (r : Resolver) (name : String) : Option PNode :=
  lookupFst r.virtualPathsToSourceNodes name

/-- `WorkspaceFileResolver::getSourceNodeFromRealPath`: canonicalize the query
(falling back to the query itself on failure) and look it up. -/
def getSourceNodeFromRealPath (env : Env) (r : Resolver) (name : String) : Option PNode :=
  let strName :=
    match env.weaklyCanonical name with
    | some canonicalName => canonicalName
    | none => name
  lookupFst r.realPathsToSourceNodes strName

/-- `WorkspaceFileResolver::getVirtualPathFromSourceNode`. -/
def getVirtualPathFromSourceNode (sourceNode : PNode) : String :=
  sourceNode.virtualPath

/-- `WorkspaceFileResolver::getRealPathFromSourceNode`: the sourcemap file
path concatenated onto the workspace root. -/
def getRealPathFromSourceNode (env : Env) (sourceNode : PNode) : Option String :=
  match sourceNode.node.scriptFilePath with
  | some filePath => some (joinPath env.rootPath filePath)
  | none => none

/-- `WorkspaceFileResolver::resolveToVirtualPath`. -/
def resolveToVirtualPath (env : Env) (r : Resolver) (name : String) : Option String :=
  if env.isVirtualPath name then some name
  else
    match getSourceNodeFromRealPath env r name with
    | none => none
    | some sourceNode => some (getVirtualPathFromSourceNode sourceNode)

/-- `WorkspaceFileResolver::resolveToRealPath`. -/
def resolveToRealPath (env : Env) (r : Resolver) (name : String) : Option String :=
  if env.isVirtualPath name then
    match getSourceNodeFromVirtualPath r name with
    | some sourceNode => getRealPathFromSourceNode env sourceNode
    | none => none
  else some name

/-- `WorkspaceFileResolver::getRequireBasePath`: the base path for a string
require, by configuration either the workspace root or the parent directory
of the context file (falling back to the root). -/
def getRequireBasePath (env : Env) (r : Resolver) (fileModuleName : Option String) : String :=
  if !env.hasClient then env.rootPath
  else
    match env.requireMode with
    | .relativeToWorkspaceRoot => env.rootPath
    | .relativeToFile =>
      match fileModuleName with
      | some moduleName =>
        match resolveToRealPath env r moduleName with
        | some filePath => env.parentPathOf filePath
        | none => env.rootPath
      | none => env.rootPath

/-- The body `resolveDirectoryAlias` runs for the alias it selects: strip the
alias, splice in its target directory, resolve, then (optionally) try the
`.luau` / `.lua` extensions. -/
def aliasApply (env : Env) (a path str : String) (includeExtension : Bool) : String :=
  let remainder := str.drop a.length
  let filePath := env.resolvePath (if remainder = "" then path else joinPath path remainder)
  if includeExtension && !env.hasExtension filePath then
    if env.fsExists (env.replaceExtension filePath ".luau") then
      env.replaceExtension filePath ".luau"
    else
      env.replaceExtension filePath ".lua"
  else filePath

/-- `resolveDirectoryAlias`: scan the directory-alias map in iteration order
and take the first alias that is a string prefix of `str`. -/
def resolveDirectoryAlias (env : Env) (directoryAliases : List (String × String))
    (str : String) (includeExtension : Bool) : Option String :=
  match directoryAliases with
  | [] => none
  | (a, path) :: rest =>
    if strStartsWith str a then some (aliasApply env a path str includeExtension)
    else resolveDirectoryAlias env rest str includeExtension

/-- Whether an embedded C++ computation completed without faulting. -/
def okB {α : Type} : Except Unit α → Bool
  | .ok _ => true
  | .error _ => false

/-- The `AstExprConstantString` branch of `resolveModule`: base path, file /
directory aliases, `init.luau` completion, `.luau` → `.lua` extension retry,
and the final URI normalisation round trip.  (`filePath.replace_extension`
mutates `filePath` in place, so the `exists` check after it sees the `.luau`
path, and on the fallback branch `weakly_canonical`'s error overload yields
an empty path.) -/
def stringRequireResult (env : Env) (r : Resolver) (context : Option ModuleInfo)
    (requiredString : String) : String :=
  let basePath := getRequireBasePath env r (context.map ModuleInfo.name)
  let filePath := joinPath basePath requiredString
  let filePath :=
    if env.hasClient then
      match lookupFst env.fileAliases requiredString with
      | some target => env.resolvePath target
      | none =>
        match resolveDirectoryAlias env env.directoryAliases requiredString
            env.includeExtensionDefault with
        | some aliasedPath => aliasedPath
        | none => filePath
    else filePath
  let filePath := if env.isDirectory filePath then joinPath filePath "init.luau" else filePath
  let luauPath := env.replaceExtension filePath ".luau"
  let finalPath :=
    if (env.weaklyCanonical luauPath).isNone || !env.fsExists luauPath then
      (env.weaklyCanonical (env.replaceExtension luauPath ".lua")).getD ""
    else luauPath
  env.uriNormalise finalPath

/-- `WorkspaceFileResolver::resolveModule`.  The two spots where the C++
dereferences a possibly-null pointer are `.error ()`: `context->name` in the
`script` branch (no null check), and
`call->func->as<AstExprIndexName>()->index` when a self call's function is
not an index-name expression (the parser only produces self calls of that
shape). -/
def resolveModule (env : Env) (r : Resolver) (context : Option ModuleInfo)
    (node : AstExpr) : Except Unit (Option ModuleInfo) :=
  match node with
  | .constantString value =>
    .ok (some { name := stringRequireResult env r context value })
  | .global g =>
    if g = "game" then .ok (some { name := "game" })
    else if g = "script" then
      match context with
      | none => .error ()
      | some ctx =>
        match resolveToVirtualPath env r ctx.name with
        | some virtualPath => .ok (some { name := virtualPath })
        | none => .ok none
    else .ok none
  | .indexName _ index =>
    match context with
    | none => .ok none
    | some ctx =>
      if index = "Parent" then
        match getParentPath ctx.name with
        | some parentPath => .ok (some ⟨parentPath, ctx.optional⟩)
        | none => .ok (some ⟨mapContext ctx.name ++ "/" ++ index, ctx.optional⟩)
      else .ok (some ⟨mapContext ctx.name ++ "/" ++ index, ctx.optional⟩)
  | .indexExpr _ index =>
    match index with
    | .constantString value =>
      match context with
      | none => .ok none
      | some ctx => .ok (some ⟨mapContext ctx.name ++ "/" ++ value, ctx.optional⟩)
    | _ => .ok none
  | .call func selfFlag args =>
    match context with
    | none => .ok none
    | some ctx =>
      if selfFlag && decide (1 ≤ args.length) then
        match args with
        | .constantString arg :: _ =>
          match func with
          | .indexName _ funcName =>
            if funcName = "GetService" && ctx.name = "game" then
              .ok (some { name := "game/" ++ arg })
            else if funcName = "WaitForChild"
                || (funcName = "FindFirstChild" && args.length = 1) then
              .ok (some ⟨mapContext ctx.name ++ "/" ++ arg, ctx.optional⟩)
            else if funcName = "FindFirstAncestor" then
              match getAncestorPath ctx.name arg with
              | some ancestorName => .ok (some ⟨ancestorName, ctx.optional⟩)
              | none => .ok none
            else .ok none
          | _ => .error ()
        | _ => .ok none
      else .ok none
  | .other => .ok none

/-- The parser's structural guarantee on the closed expression set: a
method-style (self) call's function is an index-name expression. -/
def wellFormedExpr : AstExpr → Bool
  | .call func selfFlag _ =>
    !selfFlag || (match func with | .indexName _ _ => true | _ => false)
  | _ => true

/- ### Config cascade (`getConfig` / `readConfigRec` / `clearConfigCache`) -/

/-- The external collaborators of the config cascade: `readFile` of the
`.luaurc` in a directory, and `Luau::parseConfig`, which updates the record
in place and reports an optional error message.  A directory is represented
by its component list, innermost component first, so `parent_path` is `tail`
and a path with no parent is `[]`. -/
structure ConfigEnv (Config : Type) where
  defaultConfig : Config
  readFile : List String → Option String
  parseConfig : String → Config → Config × Option String
  hasClient : Bool

/-- The mutable config-cascade state: `configCache` keyed by the directory,
and the internal `configErrors` list used when no client is present. -/
structure ConfigState (Config : Type) where
  configCache : List (List String × Config)
  configErrors : List (List String × String)

/-- The non-recursive tail of `WorkspaceFileResolver::readConfigRec` once the
base record is in hand: overlay the directory's config file if one parses,
record a parse error when it does not (internally when no client is present),
and cache the result. -/
def readConfigStep {Config : Type} (env : ConfigEnv Config) (path : List String)
    (base : Config) (s1 : ConfigState Config) : Config × ConfigState Config :=
  let resultAndState : Config × ConfigState Config :=
    match env.readFile path with
    | none => (base, s1)
    | some contents =>
      match env.parseConfig contents base with
      | (parsed, some err) =>
        (parsed,
          if env.hasClient then s1
          else { s1 with configErrors := s1.configErrors ++ [(path, err)] })
      | (parsed, none) => (parsed, s1)
  (resultAndState.1,
    { resultAndState.2 with
      configCache := (path, resultAndState.1) :: resultAndState.2.configCache })

/-- `WorkspaceFileResolver::readConfigRec`: return the cached record if
present; otherwise merge the parent directory's record (the default config
when the path has no parent, i.e. when
`path.has_relative_path() && path.has_parent_path()` fails) and run the
overlay step. -/
def readConfigRec {Config : Type} (env : ConfigEnv Config) :
    List String → ConfigState Config → Config × ConfigState Config
  | [], s =>
    match lookupFst s.configCache [] with
    | some cached => (cached, s)
    | none => readConfigStep env [] env.defaultConfig s
  | a :: parent, s =>
    match lookupFst s.configCache (a :: parent) with
    | some cached => (cached, s)
    | none =>
      let baseAndState := readConfigRec env parent s
      readConfigStep env (a :: parent) baseAndState.1 baseAndState.2

/-- `WorkspaceFileResolver::clearConfigCache`: clears the cache and the
internal error list together. -/
def clearConfigCache {Config : Type} (_ : ConfigState Config) : ConfigState Config :=
  { configCache := [], configErrors := [] }

/-- The pure value of the cascade on a fixed filesystem: the parent's merged
record (the default at a parentless path) with the directory's own config
file overlaid. -/
def overlayDir {Config : Type} (env : ConfigEnv Config) (path : List String)
    (base : Config) : Config :=
  match env.readFile path with
  | none => base
  | some contents => (env.parseConfig contents base).1

def cascadeConfig {Config : Type} (env : ConfigEnv Config) : List String → Config
  | [] => overlayDir env [] env.defaultConfig
  | path@(_ :: parent) => overlayDir env path (cascadeConfig env parent)

/-- Every cache entry holds the pure cascade value of its directory.  The
empty cache is coherent, and `readConfigRec` preserves coherence. -/
def Coherent {Config : Type} (env : ConfigEnv Config) (s : ConfigState Config) : Prop :=
  ∀ e ∈ s.configCache, e.2 = cascadeConfig env e.1

/- ### The pre-order visit list of a sourcemap walk -/

mutual

/-- The `(assigned virtual path, node)` pairs that `writePathsToMap` visits,
in visit order. -/
def visitedNode : SourceNode → String → List (String × SourceNode)
  | n@(.mk _ _ _ children), base => (base, n) :: visitedChildren children base

def visitedChildren : List SourceNode → String → List (String × SourceNode)
  | [], _ => []
  | c :: cs, base => visitedNode c (joinPath base c.name) ++ visitedChildren cs base

end

/-- The virtual-path index entries a visit list contributes. -/
def annotV (l : List (String × SourceNode)) : List (String × PNode) :=
  l.map (fun pn => (pn.1, ⟨pn.1, pn.2⟩))

/-- The real-path index entries a visit list contributes. -/
def annotR (env : Env) (l : List (String × SourceNode)) : List (String × PNode) :=
  l.filterMap (fun pn =>
    match pn.2.scriptFilePath with
    | some realPath => some (rmapKey env realPath, (⟨pn.1, pn.2⟩ : PNode))
    | none => none)

/- ### Concrete instances used by witnesses and counterexamples -/

/-- A baseline concrete environment: workspace root `/ws`, a client with no
aliases, root-relative require mode, a filesystem on which canonicalization
is the identity and nothing exists. -/
def envBase : Env where
  rootPath := "/ws"
  hasClient := true
  requireMode := .relativeToWorkspaceRoot
  fileAliases := []
  directoryAliases := []
  includeExtensionDefault := false
  isVirtualPath := fun s => s == "game" || strStartsWith s "game/"
  isDirectory := fun _ => false
  fsExists := fun _ => false
  weaklyCanonical := fun s => some s
  resolvePath := fun s => s
  parentPathOf := fun _ => ""
  hasExtension := fun _ => true
  replaceExtension := fun s _ => s
  uriNormalise := fun s => s
  parseSourceMap := fun _ => none
  pluginInfo := false
  mutatePlugin := fun n => n

def emptyResolver : Resolver := ⟨[], [], none⟩

/-- A single-node sourcemap whose root carries a script file path. -/
def nodeRootSingle : SourceNode := .mk "Root" "DataModel" (some "src/init.luau") []

def envSingle : Env := { envBase with parseSourceMap := fun _ => some nodeRootSingle }

/-- A resolver that already holds a built tree and populated indexes. -/
def resolverPrebuilt : Resolver :=
  ⟨[("game", ⟨"game", nodeRootSingle⟩)],
   [("/ws/src/init.luau", ⟨"game", nodeRootSingle⟩)],
   some nodeRootSingle⟩

/-- Two sibling nodes with the same name but different class kinds. -/
def nodeChildA1 : SourceNode := .mk "A" "ModuleScript" none []

def nodeChildA2 : SourceNode := .mk "A" "Folder" none []

def nodeRootDup : SourceNode := .mk "Root" "DataModel" none [nodeChildA1, nodeChildA2]

def envDup : Env := { envBase with parseSourceMap := fun _ => some nodeRootDup }

/-- A root with a script file path, on a filesystem where canonicalization
always fails. -/
def nodeRootCanonFail : SourceNode := .mk "Root" "DataModel" (some "a.luau") []

def envCanonFail : Env :=
  { envBase with
    weaklyCanonical := fun _ => none
    parseSourceMap := fun _ => some nodeRootCanonFail }

/-- A directory-alias configuration in whose iteration order a shorter
matching alias comes before a longer one. -/
def aliasesShortFirst : List (String × String) := [("@", "/a"), ("@pkg", "/b")]

/-- A concrete config-cascade environment over `Nat` records: every directory
has a config file, and parsing overlays by incrementing. -/
def cfgEnvNat : ConfigEnv Nat where
  defaultConfig := 0
  readFile := fun _ => some "x"
  parseConfig := fun _ base => (base + 1, none)
  hasClient := false

/- ### Helper lemmas -/

theorem lookupFst_cons {κ α : Type} [DecidableEq κ] (k₁ : κ) (v₁ : α) (tl : List (κ × α))
    (k : κ) : lookupFst ((k₁, v₁) :: tl) k = if k₁ = k then some v₁ else lookupFst tl k :=
  rfl

theorem lookupFst_eq_of_nodup {κ α : Type} [DecidableEq κ] (l : List (κ × α)) (k : κ) (v : α)
    (hnd : (l.map Prod.fst).Nodup) (hm : (k, v) ∈ l) : lookupFst l k = some v := by
  induction l with
  | nil => cases hm
  | cons hd tl ih =>
    obtain ⟨k₁, v₁⟩ := hd
    rw [List.map_cons, List.nodup_cons] at hnd
    rcases List.mem_cons.mp hm with heq | hmem
    · rw [Prod.mk.injEq] at heq
      obtain ⟨rfl, rfl⟩ := heq
      rw [lookupFst_cons, if_pos rfl]
    · have hk : k₁ ≠ k := by
        intro h
        subst h
        exact hnd.1 (List.mem_map.mpr ⟨(k₁, v), hmem, rfl⟩)
      rw [lookupFst_cons, if_neg hk]
      exact ih hnd.2 hmem

theorem mem_of_lookupFst {κ α : Type} [DecidableEq κ] (l : List (κ × α)) (k : κ) (v : α)
    (h : lookupFst l k = some v) : (k, v) ∈ l := by
  induction l with
  | nil => cases h
  | cons hd tl ih =>
    obtain ⟨k₁, v₁⟩ := hd
    by_cases hk : k₁ = k
    · subst hk
      rw [lookupFst_cons, if_pos rfl, Option.some.injEq] at h
      subst h
      exact List.mem_cons_self _ _
    · rw [lookupFst_cons, if_neg hk] at h
      exact List.mem_cons_of_mem _ (ih h)

theorem annotV_keys (l : List (String × SourceNode)) :
    (annotV l).map Prod.fst = l.map Prod.fst := by
  simp [annotV, List.map_map]

theorem mem_annotV {l : List (String × SourceNode)} {p : String} {n : SourceNode}
    (h : (p, n) ∈ l) : (p, (⟨p, n⟩ : PNode)) ∈ annotV l := by
  have := List.mem_map_of_mem (fun pn : String × SourceNode => (pn.1, PNode.mk pn.1 pn.2)) h
  simpa [annotV] using this

mutual

theorem writePathsToMap_spec (env : Env) (n : SourceNode) (base : String) (r : Resolver) :
    writePathsToMap env n base r =
      ⟨(annotV (visitedNode n base)).reverse ++ r.virtualPathsToSourceNodes,
       (annotR env (visitedNode n base)).reverse ++ r.realPathsToSourceNodes,
       r.rootSourceNode⟩ := by
  match n with
  | .mk nm cls sfp children =>
    rw [writePathsToMap.eq_def]
    cases sfp <;>
      simp [writePathsChildren_spec env children base, visitedNode, annotV, annotR,
        SourceNode.scriptFilePath, List.filterMap_cons, List.reverse_append,
        List.append_assoc]

theorem writePathsChildren_spec (env : Env) (cs : List SourceNode) (base : String)
    (r : Resolver) :
    writePathsChildren env cs base r =
      ⟨(annotV (visitedChildren cs base)).reverse ++ r.virtualPathsToSourceNodes,
       (annotR env (visitedChildren cs base)).reverse ++ r.realPathsToSourceNodes,
       r.rootSourceNode⟩ := by
  match cs with
  | [] => simp [writePathsChildren, visitedChildren, annotV, annotR]
  | c :: cs₁ =>
    rw [writePathsChildren.eq_def]
    simp [writePathsToMap_spec env c (joinPath base c.name) r,
      writePathsChildren_spec env cs₁ base, visitedChildren, annotV, annotR,
      List.filterMap_append, List.reverse_append, List.append_assoc]

end

/-- On a successfully parsed description, `updateSourceMap` installs the
mutated root and rebuilds both indexes from scratch from the visit list. -/
theorem updateSourceMap_parsed (env : Env) (r : Resolver) (contents : String)
    (parsed : SourceNode) (hp : env.parseSourceMap contents = some parsed) :
    updateSourceMap env r contents =
      ⟨(annotV (visitedNode (effectiveRoot env parsed)
          (rootBase (effectiveRoot env parsed)))).reverse,
       (annotR env (visitedNode (effectiveRoot env parsed)
          (rootBase (effectiveRoot env parsed)))).reverse,
       some (effectiveRoot env parsed)⟩ := by
  rw [updateSourceMap, hp]
  simp [writePathsToMap_spec]

/-- `readConfigStep` returns the overlaid record and caches it. -/
theorem readConfigStep_spec {Config : Type} (env : ConfigEnv Config) (path : List String)
    (base : Config) (s1 : ConfigState Config) :
    (readConfigStep env path base s1).1 = overlayDir env path base ∧
      (readConfigStep env path base s1).2.configCache =
        (path, overlayDir env path base) :: s1.configCache := by
  rw [readConfigStep]
  cases hf : env.readFile path with
  | none => simp [overlayDir, hf]
  | some contents =>
    cases hpc : env.parseConfig contents base with
    | mk parsed err =>
      cases err with
      | none => simp [overlayDir, hf, hpc]
      | some msg =>
        cases hcl : env.hasClient <;> simp [overlayDir, hf, hpc, hcl]

/-- With a coherent cache, `readConfigRec` computes the pure cascade value
and leaves the cache coherent. -/
theorem readConfigRec_coherent {Config : Type} (env : ConfigEnv Config) (p : List String)
    (s : ConfigState Config) (hs : Coherent env s) :
    (readConfigRec env p s).1 = cascadeConfig env p ∧
      Coherent env (readConfigRec env p s).2 := by
  induction p generalizing s with
  | nil =>
    rw [readConfigRec]
    cases hc : lookupFst s.configCache [] with
    | some cached =>
      exact ⟨hs _ (mem_of_lookupFst _ _ _ hc), hs⟩
    | none =>
      have h := readConfigStep_spec env [] env.defaultConfig s
      refine ⟨by rw [h.1, cascadeConfig], ?_⟩
      intro e he
      rw [h.2] at he
      rcases List.mem_cons.mp he with heq | hmem
      · subst heq
        rw [cascadeConfig]
      · exact hs _ hmem
  | cons a parent ih =>
    rw [readConfigRec]
    cases hc : lookupFst s.configCache (a :: parent) with
    | some cached =>
      exact ⟨hs _ (mem_of_lookupFst _ _ _ hc), hs⟩
    | none =>
      obtain ⟨ihv, ihc⟩ := ih s hs
      have h := readConfigStep_spec env (a :: parent) (readConfigRec env parent s).1
        (readConfigRec env parent s).2
      refine ⟨by rw [h.1, ihv, cascadeConfig], ?_⟩
      intro e he
      rw [h.2] at he
      rcases List.mem_cons.mp he with heq | hmem
      · subst heq
        rw [ihv, cascadeConfig]
      · exact ihc _ hmem

/-- The state after `clearConfigCache` is vacuously coherent. -/
theorem clearConfigCache_coherent {Config : Type} (env : ConfigEnv Config)
    (s : ConfigState Config) : Coherent env (clearConfigCache s) := by
  intro e he
  cases he

/- ### Claim C1 -/

/-- C1 (counterexample): a rebuild on malformed input does not leave the
previously built path indexes untouched — `updateSourceMap` clears both
indexes before parsing, so after a parse failure they are empty even though
the previous tree is retained.  The previously built resolver here has a
non-empty virtual-path index. -/
theorem updateSourceMap_malformed_counterexample :
    (updateSourceMap envBase resolverPrebuilt "junk").virtualPathsToSourceNodes = [] ∧
    (updateSourceMap envBase resolverPrebuilt "junk").realPathsToSourceNodes = [] ∧
    resolverPrebuilt.virtualPathsToSourceNodes ≠ [] ∧
    (updateSourceMap envBase resolverPrebuilt "junk").rootSourceNode =
      resolverPrebuilt.rootSourceNode := by
  refine ⟨rfl, rfl, ?_, rfl⟩
  intro h
  simp [resolverPrebuilt] at h

/-- C1 (amended): when the structural description fails to parse,
`updateSourceMap` retains the previous tree (`rootSourceNode` is unchanged)
but both path indexes have already been cleared before parsing, so they are
left empty rather than untouched; only the tree pointer is swapped
atomically. -/
theorem updateSourceMap_malformed (env : Env) (r : Resolver) (contents : String)
    (h : env.parseSourceMap contents = none) :
    (updateSourceMap env r contents).rootSourceNode = r.rootSourceNode ∧
    (updateSourceMap env r contents).virtualPathsToSourceNodes = [] ∧
    (updateSourceMap env r contents).realPathsToSourceNodes = [] := by
  rw [updateSourceMap, h]
  exact ⟨rfl, rfl, rfl⟩

theorem updateSourceMap_malformed_witness :
    (updateSourceMap envBase resolverPrebuilt "bad").rootSourceNode =
      resolverPrebuilt.rootSourceNode ∧
    (updateSourceMap envBase resolverPrebuilt "bad").virtualPathsToSourceNodes = [] ∧
    (updateSourceMap envBase resolverPrebuilt "bad").realPathsToSourceNodes = [] :=
  updateSourceMap_malformed envBase resolverPrebuilt "bad" rfl

/- ### Claim C4 -/

/-- C4 (counterexample): context remapping is not a prefix substitution — a
context that strictly extends the well-known prefix
`game/Players/LocalPlayer/PlayerGui` is left unchanged by `mapContext`
(which compares for exact equality), so the resolved child path keeps the
local-view prefix instead of the claimed `game/StarterGui/Frame/Button`. -/
theorem context_remap_counterexample :
    resolveModule envBase emptyResolver
        (some ⟨"game/Players/LocalPlayer/PlayerGui/Frame", false⟩)
        (.indexName .other "Button")
      = .ok (some ⟨"game/Players/LocalPlayer/PlayerGui/Frame/Button", false⟩) ∧
    "game/Players/LocalPlayer/PlayerGui/Frame/Button" ≠ "game/StarterGui/Frame/Button" :=
  ⟨rfl, by decide⟩

/-- C4 (amended): context remapping is an exact-match substitution: a context
virtual path *equal to* one of the three well-known local-view paths is
rewritten to its shared-container equivalent before the child segment is
appended, and every other context (including strict extensions of those
paths) is used unchanged. -/
theorem context_remap_exact (env : Env) (r : Resolver) (o : AstExpr)
    (childName : String) (opt : Bool) (ctx : ModuleInfo)
    (hname : childName ≠ "Parent") :
    resolveModule env r (some ⟨"game/Players/LocalPlayer/PlayerScripts", opt⟩)
        (.indexName o childName)
      = .ok (some ⟨"game/StarterPlayer/StarterPlayerScripts/" ++ childName, opt⟩) ∧
    resolveModule env r (some ⟨"game/Players/LocalPlayer/PlayerGui", opt⟩)
        (.indexName o childName)
      = .ok (some ⟨"game/StarterGui/" ++ childName, opt⟩) ∧
    resolveModule env r (some ⟨"game/Players/LocalPlayer/StarterGear", opt⟩)
        (.indexName o childName)
      = .ok (some ⟨"game/StarterPack/" ++ childName, opt⟩) ∧
    (ctx.name ≠ "game/Players/LocalPlayer/PlayerScripts" →
      ctx.name ≠ "game/Players/LocalPlayer/PlayerGui" →
      ctx.name ≠ "game/Players/LocalPlayer/StarterGear" →
      resolveModule env r (some ctx) (.indexName o childName)
        = .ok (some ⟨ctx.name ++ "/" ++ childName, ctx.optional⟩)) := by
  have e1 : mapContext "game/Players/LocalPlayer/PlayerScripts" ++ "/" =
      "game/StarterPlayer/StarterPlayerScripts/" := by decide
  have e2 : mapContext "game/Players/LocalPlayer/PlayerGui" ++ "/" =
      "game/StarterGui/" := by decide
  have e3 : mapContext "game/Players/LocalPlayer/StarterGear" ++ "/" =
      "game/StarterPack/" := by decide
  refine ⟨?_, ?_, ?_, ?_⟩
  · simp only [resolveModule]
    rw [if_neg hname, e1]
  · simp only [resolveModule]
    rw [if_neg hname, e2]
  · simp only [resolveModule]
    rw [if_neg hname, e3]
  · intro h1 h2 h3
    simp only [resolveModule]
    rw [if_neg hname, mapContext, if_neg h1, if_neg h2, if_neg h3]

theorem context_remap_exact_witness :
    resolveModule envBase emptyResolver
        (some ⟨"game/Players/LocalPlayer/PlayerGui", false⟩) (.indexName .other "Frame")
      = .ok (some ⟨"game/StarterGui/" ++ "Frame", false⟩) :=
  (context_remap_exact envBase emptyResolver .other "Frame" false
    ⟨"game/ReplicatedStorage", false⟩ (by decide)).2.1

/- ### Claim C5 -/

/-- C5 (counterexample): for the context `game`, which has no parent segment
(`getParentPath` returns `none`), resolving `.Parent` does not return "no
result": the code falls through to the named-child rule and yields
`game/Parent`. -/
theorem parent_navigation_counterexample :
    getParentPath "game" = none ∧
    resolveModule envBase emptyResolver (some ⟨"game", false⟩) (.indexName .other "Parent")
      = .ok (some ⟨"game/Parent", false⟩) :=
  ⟨rfl, rfl⟩

/-- C5 (amended): resolving a parent-navigation reference returns the
context's virtual path with its last segment removed when the context has a
parent segment; when it has none, resolution falls through to the
named-child rule and returns `mapContext(context) + "/Parent"` instead of no
result. -/
theorem parent_navigation (env : Env) (r : Resolver) (o : AstExpr) (ctx : ModuleInfo) :
    (∀ parentPath, getParentPath ctx.name = some parentPath →
      resolveModule env r (some ctx) (.indexName o "Parent")
        = .ok (some ⟨parentPath, ctx.optional⟩)) ∧
    (getParentPath ctx.name = none →
      resolveModule env r (some ctx) (.indexName o "Parent")
        = .ok (some ⟨mapContext ctx.name ++ "/" ++ "Parent", ctx.optional⟩)) := by
  constructor
  · intro parentPath hpp
    simp [resolveModule, hpp]
  · intro hpp
    simp [resolveModule, hpp]

theorem parent_navigation_witness :
    resolveModule envBase emptyResolver (some ⟨"game/ReplicatedStorage/Utils", false⟩)
        (.indexName .other "Parent") = .ok (some ⟨"game/ReplicatedStorage", false⟩) :=
  (parent_navigation envBase emptyResolver .other ⟨"game/ReplicatedStorage/Utils", false⟩).1
    "game/ReplicatedStorage" rfl

/- ### Claim C9 -/

/-- C9: a method-style `FindFirstChild` call with more than one argument is
never resolved (`.ok none`), while single-argument `FindFirstChild` and
`WaitForChild` (with any argument count) resolve exactly by the named-child
rule `mapContext(context) + "/" + name`, inheriting the context's optional
flag. -/
theorem findFirstChild_resolution (env : Env) (r : Resolver) (fo : AstExpr)
    (ctx : ModuleInfo) (childName : String) (rest : List AstExpr) :
    (rest ≠ [] →
      resolveModule env r (some ctx)
          (.call (.indexName fo "FindFirstChild") true (.constantString childName :: rest))
        = .ok none) ∧
    resolveModule env r (some ctx)
        (.call (.indexName fo "FindFirstChild") true [.constantString childName])
      = .ok (some ⟨mapContext ctx.name ++ "/" ++ childName, ctx.optional⟩) ∧
    resolveModule env r (some ctx)
        (.call (.indexName fo "WaitForChild") true (.constantString childName :: rest))
      = .ok (some ⟨mapContext ctx.name ++ "/" ++ childName, ctx.optional⟩) := by
  refine ⟨?_, rfl, ?_⟩
  · intro hrest
    cases rest with
    | nil => exact absurd rfl hrest
    | cons r1 rest₁ => rfl
  · cases rest with
    | nil => rfl
    | cons r1 rest₁ => rfl

theorem findFirstChild_resolution_witness :
    resolveModule envBase emptyResolver (some ⟨"game/RS", false⟩)
        (.call (.indexName .other "FindFirstChild") true
          [.constantString "X", .other]) = .ok none ∧
    resolveModule envBase emptyResolver (some ⟨"game/RS", false⟩)
        (.call (.indexName .other "FindFirstChild") true [.constantString "X"])
      = .ok (some ⟨mapContext "game/RS" ++ "/" ++ "X", false⟩) :=
  ⟨(findFirstChild_resolution envBase emptyResolver .other ⟨"game/RS", false⟩ "X"
      [.other]).1 (by simp),
   (findFirstChild_resolution envBase emptyResolver .other ⟨"game/RS", false⟩ "X"
      [.other]).2.1⟩

/- ### Claim C10 -/

/-- C10: the identity classification is a fixed point of both resolution
directions: any name the syntactic predicate classifies as virtual is
returned unchanged by `resolveToVirtualPath`, and any name it classifies as
real is returned unchanged by `resolveToRealPath` — in both cases for every
index state `r` whatsoever (so neither index, nor any filesystem check, can
influence the result). -/
theorem identity_classification_fixed_point (env : Env) (r : Resolver) (name : String) :
    (env.isVirtualPath name = true → resolveToVirtualPath env r name = some name) ∧
    (env.isVirtualPath name = false → resolveToRealPath env r name = some name) := by
  constructor
  · intro h
    rw [resolveToVirtualPath, if_pos h]
  · intro h
    rw [resolveToRealPath, if_neg (by simp [h])]

theorem identity_classification_witness :
    resolveToVirtualPath envBase emptyResolver "game/Foo" = some "game/Foo" ∧
    resolveToRealPath envBase emptyResolver "/ws/file.luau" = some "/ws/file.luau" :=
  ⟨(identity_classification_fixed_point envBase emptyResolver "game/Foo").1 (by decide),
   (identity_classification_fixed_point envBase emptyResolver "/ws/file.luau").2 (by decide)⟩

/- ### Claims C3 and C7 -/

/-- Shared helper: after a rebuild with pairwise-distinct real-path keys,
every visited node carrying a script file path is found in the real-path
index under the key `writePathsToMap` computed for it. -/
theorem rmap_lookup_of_visited (env : Env) (r : Resolver) (contents : String)
    (parsed : SourceNode) (hp : env.parseSourceMap contents = some parsed)
    (hr : ((annotR env (visitedNode (effectiveRoot env parsed)
        (rootBase (effectiveRoot env parsed)))).map Prod.fst).Nodup)
    (p : String) (n : SourceNode) (sp : String)
    (hmem : (p, n) ∈ visitedNode (effectiveRoot env parsed)
        (rootBase (effectiveRoot env parsed)))
    (hsp : n.scriptFilePath = some sp) :
    lookupFst (updateSourceMap env r contents).realPathsToSourceNodes (rmapKey env sp) =
      some ⟨p, n⟩ := by
  rw [updateSourceMap_parsed env r contents parsed hp]
  apply lookupFst_eq_of_nodup
  · rw [List.map_reverse]
    exact List.nodup_reverse.mpr hr
  · apply List.mem_reverse.mpr
    apply List.mem_filterMap.mpr
    refine ⟨(p, n), hmem, ?_⟩
    simp only [hsp]

/-- C3 (counterexample): after rebuilding a tree with two sibling nodes that
share the name `A` (but have different class kinds), looking up the shared
virtual path `game/A` returns the second sibling, not the first — so "for
every node, looking up the node's virtual path returns that node" fails. -/
theorem rebuild_index_lookup_counterexample :
    envDup.parseSourceMap "dup" = some nodeRootDup ∧
    ("game/A", nodeChildA1) ∈ visitedNode (effectiveRoot envDup nodeRootDup)
        (rootBase (effectiveRoot envDup nodeRootDup)) ∧
    lookupFst (updateSourceMap envDup emptyResolver "dup").virtualPathsToSourceNodes
        "game/A" = some ⟨"game/A", nodeChildA2⟩ ∧
    nodeChildA1 ≠ nodeChildA2 := by
  refine ⟨rfl, ?_, rfl, ?_⟩
  · exact List.mem_cons_of_mem _ (List.mem_cons_self _ _)
  · intro h
    exact absurd (congrArg SourceNode.className h) (by decide)

/-- C3 (amended): after every rebuild whose assigned virtual paths are
pairwise distinct and whose real-path keys are pairwise distinct, looking up
a node's assigned virtual path in the virtual-path index returns that node,
and if the node carries a script file path, looking up the key computed for
it (the canonicalized join of workspace root and script path, with the
code's fallback on canonicalization failure) in the real-path index returns
that node. -/
theorem rebuild_index_lookup (env : Env) (r : Resolver) (contents : String)
    (parsed : SourceNode) (hp : env.parseSourceMap contents = some parsed)
    (hv : ((visitedNode (effectiveRoot env parsed)
        (rootBase (effectiveRoot env parsed))).map Prod.fst).Nodup)
    (hr : ((annotR env (visitedNode (effectiveRoot env parsed)
        (rootBase (effectiveRoot env parsed)))).map Prod.fst).Nodup)
    (p : String) (n : SourceNode)
    (hmem : (p, n) ∈ visitedNode (effectiveRoot env parsed)
        (rootBase (effectiveRoot env parsed))) :
    lookupFst (updateSourceMap env r contents).virtualPathsToSourceNodes p =
      some ⟨p, n⟩ ∧
    ∀ sp, n.scriptFilePath = some sp →
      lookupFst (updateSourceMap env r contents).realPathsToSourceNodes (rmapKey env sp) =
        some ⟨p, n⟩ := by
  constructor
  · rw [updateSourceMap_parsed env r contents parsed hp]
    apply lookupFst_eq_of_nodup
    · rw [List.map_reverse, annotV_keys]
      exact List.nodup_reverse.mpr hv
    · exact List.mem_reverse.mpr (mem_annotV hmem)
  · intro sp hsp
    exact rmap_lookup_of_visited env r contents parsed hp hr p n sp hmem hsp

theorem rebuild_index_lookup_witness :
    lookupFst (updateSourceMap envSingle emptyResolver "map").virtualPathsToSourceNodes
        "game" = some ⟨"game", nodeRootSingle⟩ ∧
    lookupFst (updateSourceMap envSingle emptyResolver "map").realPathsToSourceNodes
        (rmapKey envSingle "src/init.luau") = some ⟨"game", nodeRootSingle⟩ := by
  have h := rebuild_index_lookup envSingle emptyResolver "map" nodeRootSingle rfl
    (by decide) (by decide) "game" nodeRootSingle (List.mem_cons_self _ _)
  exact ⟨h.1, h.2 "src/init.luau" rfl⟩

/-- C7 (counterexample): when canonicalization of the joined path fails, the
real-path index key is the bare script file path (`a.luau`), not the
uncanonicalized join of workspace root and script file path
(`/ws/a.luau`) that the claim describes: the join is absent from the index
while the bare path is present. -/
theorem realpath_key_fallback_counterexample :
    nodeRootCanonFail.scriptFilePath = some "a.luau" ∧
    envCanonFail.weaklyCanonical (joinPath envCanonFail.rootPath "a.luau") = none ∧
    lookupFst (updateSourceMap envCanonFail emptyResolver "x").realPathsToSourceNodes
        (joinPath envCanonFail.rootPath "a.luau") = none ∧
    lookupFst (updateSourceMap envCanonFail emptyResolver "x").realPathsToSourceNodes
        "a.luau" = some ⟨"game", nodeRootCanonFail⟩ :=
  ⟨rfl, rfl, rfl, rfl⟩

/-- C7 (amended): during index construction, for every node carrying a
script file path, the real-path key is the canonicalized join of the
workspace root and the script file path when canonicalization succeeds; when
canonicalization fails the key falls back to the bare script file path
itself (not the uncanonicalized join). -/
theorem realpath_key_fallback (env : Env) (r : Resolver) (contents : String)
    (parsed : SourceNode) (hp : env.parseSourceMap contents = some parsed)
    (hr : ((annotR env (visitedNode (effectiveRoot env parsed)
        (rootBase (effectiveRoot env parsed)))).map Prod.fst).Nodup)
    (p : String) (n : SourceNode) (sp : String)
    (hmem : (p, n) ∈ visitedNode (effectiveRoot env parsed)
        (rootBase (effectiveRoot env parsed)))
    (hsp : n.scriptFilePath = some sp) :
    (∀ c, env.weaklyCanonical (joinPath env.rootPath sp) = some c →
      lookupFst (updateSourceMap env r contents).realPathsToSourceNodes c =
        some ⟨p, n⟩) ∧
    (env.weaklyCanonical (joinPath env.rootPath sp) = none →
      lookupFst (updateSourceMap env r contents).realPathsToSourceNodes sp =
        some ⟨p, n⟩) := by
  constructor
  · intro c hc
    have hk : rmapKey env sp = c := by rw [rmapKey, hc]
    rw [← hk]
    exact rmap_lookup_of_visited env r contents parsed hp hr p n sp hmem hsp
  · intro hc
    have hk : rmapKey env sp = sp := by rw [rmapKey, hc]
    rw [← hk]
    exact rmap_lookup_of_visited env r contents parsed hp hr p n sp hmem hsp

theorem realpath_key_fallback_witness :
    lookupFst (updateSourceMap envCanonFail emptyResolver "y").realPathsToSourceNodes
        "a.luau" = some ⟨"game", nodeRootCanonFail⟩ :=
  (realpath_key_fallback envCanonFail emptyResolver "y" nodeRootCanonFail rfl (by decide)
    "game" nodeRootCanonFail "a.luau" (List.mem_cons_self _ _) rfl).2 rfl

/- ### Claim C2 -/

/-- C2 (counterexample): `resolveModule` is not total over absent contexts:
resolving the self-anchor global `script` with a null context dereferences
the null context (`context->name` has no null check), modelled as a fault. -/
theorem resolveModule_null_context_fault :
    resolveModule envBase emptyResolver none (.global "script") = .error () := rfl

/-- C2 (amended): `resolveModule` returns a module identity or "no result"
and never faults for every well-formed expression of the closed shape set
and every context — except for the single fault case of the self-anchor
global `script` with an absent context (well-formed: a method-style self
call's function is an index-name expression, which the external parser
guarantees by construction). -/
theorem resolveModule_no_fault (env : Env) (r : Resolver) (context : Option ModuleInfo)
    (e : AstExpr) (hwf : wellFormedExpr e = true)
    (hctx : ¬(context = none ∧ e = AstExpr.global "script")) :
    okB (resolveModule env r context e) = true := by
  cases e with
  | constantString v => rfl
  | global g =>
    by_cases hg : g = "game"
    · simp [resolveModule, hg, okB]
    · by_cases hs : g = "script"
      · cases context with
        | none =>
          subst hs
          exact absurd ⟨rfl, rfl⟩ hctx
        | some ctx =>
          cases h : resolveToVirtualPath env r ctx.name with
          | some vp => simp [resolveModule, hg, hs, h, okB]
          | none => simp [resolveModule, hg, hs, h, okB]
      · simp [resolveModule, hg, hs, okB]
  | indexName o idx =>
    cases context with
    | none => rfl
    | some ctx =>
      by_cases hp : idx = "Parent"
      · cases h : getParentPath ctx.name with
        | some pp => simp [resolveModule, hp, h, okB]
        | none => simp [resolveModule, hp, h, okB]
      · simp [resolveModule, hp, okB]
  | indexExpr o idx =>
    cases idx <;> cases context <;> rfl
  | call func selfFlag args =>
    cases context with
    | none => rfl
    | some ctx =>
      cases selfFlag with
      | false => rfl
      | true =>
        cases args with
        | nil => rfl
        | cons a rest =>
          cases a with
          | constantString arg =>
            cases func with
            | indexName fo fname =>
              simp only [resolveModule]
              repeat' split
              all_goals rfl
            | constantString v => simp [wellFormedExpr] at hwf
            | global g => simp [wellFormedExpr] at hwf
            | indexExpr o2 i2 => simp [wellFormedExpr] at hwf
            | call f2 s2 a2 => simp [wellFormedExpr] at hwf
            | other => simp [wellFormedExpr] at hwf
          | global g =>
            simp only [resolveModule]
            split <;> rfl
          | indexName o2 i2 =>
            simp only [resolveModule]
            split <;> rfl
          | indexExpr o2 i2 =>
            simp only [resolveModule]
            split <;> rfl
          | call f2 s2 a2 =>
            simp only [resolveModule]
            split <;> rfl
          | other =>
            simp only [resolveModule]
            split <;> rfl
  | other => rfl

theorem resolveModule_no_fault_witness :
    okB (resolveModule envBase emptyResolver (some ⟨"x", false⟩) (.global "script")) =
      true :=
  resolveModule_no_fault envBase emptyResolver (some ⟨"x", false⟩) (.global "script") rfl
    (by simp)

/- ### Claim C6 -/

/-- C6 (counterexample): the alias chosen by `resolveDirectoryAlias` is not
the one with the longest matching prefix: with iteration order
`[("@", "/a"), ("@pkg", "/b")]` and literal `@pkg/m`, the longer alias
`@pkg` also matches, yet the result splices in the target of the shorter
first-listed alias `@` (`/a/pkg/m`), not `/b/m`. -/
theorem directoryAlias_counterexample :
    resolveDirectoryAlias envBase aliasesShortFirst "@pkg/m" false = some "/a/pkg/m" ∧
    ("@pkg", "/b") ∈ aliasesShortFirst ∧
    strStartsWith "@pkg/m" "@pkg" = true ∧
    "@".length < "@pkg".length ∧
    resolveDirectoryAlias envBase aliasesShortFirst "@pkg/m" false ≠ some "/b/m" := by
  refine ⟨rfl, ?_, rfl, by decide, by decide⟩
  exact List.mem_cons_of_mem _ (List.mem_cons_self _ _)

/-- C6 (amended): resolving a literal against the configured directory
aliases succeeds exactly when some alias is a string prefix of the literal,
and the alias applied is the first matching one in the map's iteration order
(not necessarily the longest); its prefix is replaced by the target
directory and the remainder of the literal appended (`aliasApply`). -/
theorem directoryAlias_first_match (env : Env) (aliases : List (String × String))
    (str : String) (includeExtension : Bool) :
    (resolveDirectoryAlias env aliases str includeExtension = none ↔
      ∀ b ∈ aliases, strStartsWith str b.1 = false) ∧
    (∀ res, resolveDirectoryAlias env aliases str includeExtension = some res →
      ∃ pre a t post, aliases = pre ++ (a, t) :: post ∧
        (∀ b ∈ pre, strStartsWith str b.1 = false) ∧
        strStartsWith str a = true ∧
        res = aliasApply env a t str includeExtension) := by
  induction aliases with
  | nil =>
    refine ⟨?_, ?_⟩
    · simp [resolveDirectoryAlias]
    · intro res h
      simp [resolveDirectoryAlias] at h
  | cons hd tl ih =>
    obtain ⟨a, t⟩ := hd
    by_cases hpre : strStartsWith str a = true
    · refine ⟨?_, ?_⟩
      · rw [resolveDirectoryAlias, if_pos hpre]
        refine Iff.intro (fun h => nomatch h) (fun h => ?_)
        have := h (a, t) (List.mem_cons_self _ _)
        rw [hpre] at this
        cases this
      · intro res hres
        rw [resolveDirectoryAlias, if_pos hpre, Option.some.injEq] at hres
        exact ⟨[], a, t, tl, rfl, fun b hb => absurd hb (List.not_mem_nil b),
          hpre, hres.symm⟩
    · have hfalse : strStartsWith str a = false := by
        cases h : strStartsWith str a with
        | false => rfl
        | true => exact absurd h hpre
      refine ⟨?_, ?_⟩
      · rw [resolveDirectoryAlias, if_neg hpre, ih.1]
        constructor
        · intro h b hb
          rcases List.mem_cons.mp hb with heq | hb₁
          · rw [heq]
            exact hfalse
          · exact h b hb₁
        · intro h b hb
          exact h b (List.mem_cons_of_mem _ hb)
      · intro res hres
        rw [resolveDirectoryAlias, if_neg hpre] at hres
        obtain ⟨pre, a₁, t₁, post, heq, hprefalse, hmatch, hres₁⟩ := ih.2 res hres
        refine ⟨(a, t) :: pre, a₁, t₁, post, by rw [heq]; rfl, ?_, hmatch, hres₁⟩
        intro b hb
        rcases List.mem_cons.mp hb with heq₁ | hb₁
        · rw [heq₁]
          exact hfalse
        · exact hprefalse b hb₁

theorem directoryAlias_first_match_witness :
    resolveDirectoryAlias envBase [("@x", "/a")] "nope" false = none :=
  (directoryAlias_first_match envBase [("@x", "/a")] "nope" false).1.mpr (by decide)

/- ### Claim C8 -/

/-- C8: for every directory with a parent and every coherent cache state (as
produced by prior queries or invalidation), the merged record equals the
parent directory's merged record with only the current directory's
configuration file overlaid (`overlayDir`, with the global default at the
root); and `clearConfigCache` (invalidate) followed by the same query on the
unchanged filesystem reproduces the same record. -/
theorem config_cascade_overlay {Config : Type} (env : ConfigEnv Config)
    (p : List String) (s : ConfigState Config) (hp : p ≠ []) (hs : Coherent env s) :
    (readConfigRec env p s).1 = overlayDir env p (readConfigRec env p.tail s).1 ∧
    (readConfigRec env p (clearConfigCache (readConfigRec env p s).2)).1 =
      (readConfigRec env p s).1 := by
  obtain ⟨a, parent, rfl⟩ : ∃ a parent, p = a :: parent := by
    cases p with
    | nil => exact absurd rfl hp
    | cons a parent => exact ⟨a, parent, rfl⟩
  have h1 := readConfigRec_coherent env (a :: parent) s hs
  have h2 := readConfigRec_coherent env parent s hs
  have h3 := readConfigRec_coherent env (a :: parent)
    (clearConfigCache (readConfigRec env (a :: parent) s).2)
    (clearConfigCache_coherent env _)
  refine ⟨?_, ?_⟩
  · rw [h1.1]
    show cascadeConfig env (a :: parent) =
      overlayDir env (a :: parent) (readConfigRec env parent s).1
    rw [h2.1, cascadeConfig]
  · rw [h3.1, h1.1]

theorem config_cascade_overlay_witness :
    (readConfigRec cfgEnvNat ["a"] ⟨[], []⟩).1 =
      overlayDir cfgEnvNat ["a"] (readConfigRec cfgEnvNat [] ⟨[], []⟩).1 ∧
    (readConfigRec cfgEnvNat ["a"]
        (clearConfigCache (readConfigRec cfgEnvNat ["a"] ⟨[], []⟩).2)).1 =
      (readConfigRec cfgEnvNat ["a"] ⟨[], []⟩).1 :=
  config_cascade_overlay cfgEnvNat ["a"] ⟨[], []⟩ (by decide)
    (fun e he => absurd he (List.not_mem_nil e))

end LuauLsp
